import Mathlib

/-!
Shallow embedding of `src/app.py` (feverseotools/domain-availability-checker),
a bulk domain-availability checker.  Pure helpers (TLD extraction, price
table, registrar links, percent-encoding, line splitting) are translated
directly; the single side-effecting operation, the `whois.whois` network call,
is modelled by an explicit `WhoisOutcome` parameter describing how the call
ends (returns a record, raises `PywhoisError`, or raises any other exception).
-/

namespace DomainChecker

/-- Outcome of the `whois.whois(domain)` library call in
`check_domain_availability`: the call returns a record (`success`), raises
`whois.parser.PywhoisError` (`noMatch`), or raises any other exception
(`otherError`). -/
inductive WhoisOutcome where
  | success
  | noMatch
  | otherError
deriving DecidableEq, Repr

/-- ASCII lowercasing of one character, as `str.lower()` acts on ASCII input
(the only characters relevant to the regex `\.[a-z]+$` and the TLD table). -/
def pyLowerChar (c : Char) : Char :=
  if 'A' ≤ c ∧ c ≤ 'Z' then Char.ofNat (c.toNat + 32) else c

/-- `'a' ≤ c ≤ 'z'`: the character class `[a-z]` of the TLD regex. -/
def isLowerAZ (c : Char) : Bool := 'a' ≤ c ∧ c ≤ 'z'

/-- Embedding of `re.search(r'\.[a-z]+$', domain.lower())`, returning
`group(0)` of the match.  The regex matches exactly when the lowercased
string ends in a dot followed by one or more letters `[a-z]`, and the match
is that dot plus the trailing letter run. -/
def extract_tld (s : String) : Option String :=
  let rev := (s.toList.map pyLowerChar).reverse
  let run := rev.takeWhile isLowerAZ
  let rest := rev.dropWhile isLowerAZ
  if run.isEmpty then none
  else if rest.head? = some '.' then some (String.mk ('.' :: run.reverse))
  else none

/-- `DomainTLDs.SUPPORTED_TLDS` copied verbatim (including the duplicate
`.co` entry, which appears both as a generic TLD and as a ccTLD). -/
def SUPPORTED_TLDS : List String := [
  ".com", ".org", ".net", ".io", ".co",
  ".ad", ".ae", ".af", ".ag", ".ai", ".al", ".am", ".ar", ".at", ".au",
  ".ba", ".be", ".bg", ".bo", ".br", ".bw", ".by", ".bz", ".ca",
  ".cl", ".cn", ".co", ".cr", ".cu", ".cv", ".cz",
  ".de", ".dk", ".do", ".dz",
  ".ec", ".ee", ".eg", ".es",
  ".fi", ".fr",
  ".ge", ".gh", ".gr", ".gt",
  ".hk", ".hn", ".ht", ".hu",
  ".id", ".ie", ".il", ".in", ".iq", ".ir", ".is", ".it",
  ".jp",
  ".ke", ".kr", ".kw", ".ky",
  ".lb", ".li", ".lt", ".lu", ".lv",
  ".ma", ".mc", ".md", ".me", ".mg", ".mk", ".mm", ".mn",
  ".mx", ".my",
  ".na", ".ng", ".ni", ".nl", ".no", ".nz",
  ".pa", ".pe", ".ph", ".pk", ".pl", ".pt", ".py",
  ".qa",
  ".ro", ".rs", ".ru", ".rw",
  ".sa", ".sc", ".se", ".sg", ".sv", ".sy",
  ".th", ".tn", ".tr",
  ".ua", ".ug", ".uk", ".us", ".uy", ".uz",
  ".ve", ".vn",
  ".za"]

/-- The TLD validation performed at the top of both
`check_domain_availability` and `create_domain_info`:
`tld_match and tld_match.group(0) in DomainTLDs.SUPPORTED_TLDS`. -/
def tld_ok (domain : String) : Bool :=
  match extract_tld domain with
  | some t => SUPPORTED_TLDS.contains t
  | none => false

/-- `check_domain_availability(domain)`: `None` when the TLD is missing or
unsupported; otherwise the WHOIS call decides: a retrieved record means
registered (`False`), `PywhoisError` means available (`True`), any other
exception is caught, reported via `st.error`, and yields `None`. -/
def check_domain_availability (domain : String) (w : WhoisOutcome) : Option Bool :=
  if tld_ok domain then
    match w with
    | .success => some false
    | .noMatch => some true
    | .otherError => none
  else none

/-- The `'default'` entry of `DomainRegistrars.REGISTRARS`: base search URL
per registrar name; `none` models the `KeyError` raised by
`cls.REGISTRARS['default'][registrar]` for an unrecognized name. -/
def registrars_default (registrar : String) : Option String :=
  if registrar = "GoDaddy" then
    some "https://www.godaddy.com/es-es/domainsearch/find?domainToCheck="
  else if registrar = "Gandi" then
    some "https://shop.gandi.net/en/domain/suggest?search="
  else none

/-- The `'tld_specific'` entry of `DomainRegistrars.REGISTRARS`: empty in the
source (only a commented-out example). -/
def registrars_tld_specific : List (String × (String → Option String)) := []

/-- UTF-8 encoding of one character as a list of byte values, as
`urllib.parse.quote` encodes the string before percent-encoding. -/
def utf8Bytes (c : Char) : List Nat :=
  let n := c.toNat
  if n < 0x80 then [n]
  else if n < 0x800 then [0xC0 + n / 64, 0x80 + n % 64]
  else if n < 0x10000 then [0xE0 + n / 4096, 0x80 + n / 64 % 64, 0x80 + n % 64]
  else [0xF0 + n / 262144, 0x80 + n / 4096 % 64, 0x80 + n / 64 % 64, 0x80 + n % 64]

/-- Bytes `urllib.parse.quote` leaves unencoded with its default
`safe='/'`: ASCII letters, digits, `_`, `.`, `-`, `~`, and `/`. -/
def quoteSafe (b : Nat) : Bool :=
  (65 ≤ b ∧ b ≤ 90) ∨ (97 ≤ b ∧ b ≤ 122) ∨ (48 ≤ b ∧ b ≤ 57) ∨
    b = 95 ∨ b = 46 ∨ b = 45 ∨ b = 126 ∨ b = 47

/-- Uppercase hexadecimal digit for `n < 16`, as in `quote`'s `%XX` escapes. -/
def hexDigit (n : Nat) : Char :=
  if n < 10 then Char.ofNat (48 + n) else Char.ofNat (55 + n)

/-- `urllib.parse.quote(domain)`: UTF-8 encode, keep safe bytes, escape the
rest as `%XX` with uppercase hex. -/
def pyQuote (s : String) : String :=
  String.mk ((s.toList.flatMap utf8Bytes).flatMap fun b =>
    if quoteSafe b then [Char.ofNat b] else ['%', hexDigit (b / 16), hexDigit (b % 16)])

/-- `DomainRegistrars.get_purchase_link(domain, registrar)`.  The TLD falls
back to `'.com'` when the regex does not match; the per-TLD override table is
consulted first (it is empty); `registrar_links.get(registrar, default[registrar])`
evaluates the default argument eagerly, so an unrecognized registrar raises
`KeyError` (modelled by `none`) even on the override path. -/
def get_purchase_link (domain : String) (registrar : String) : Option String :=
  let tld := (extract_tld domain).getD ".com"
  let link : Option String :=
    match registrars_tld_specific.find? (fun p => p.1 == tld) with
    | some (_, links) =>
        (registrars_default registrar).map fun dflt => (links registrar).getD dflt
    | none => registrars_default registrar
  link.map fun l => l ++ pyQuote domain

/-- The `tld_prices` table of `DomainPriceEstimator.estimate_price`
(its `'default'` entry is `default_price` below). -/
def tld_prices : List (String × Nat × Nat) := [
  (".com", 10, 20), (".org", 8, 15), (".net", 9, 18), (".io", 30, 50), (".co", 20, 30),
  (".uk", 5, 15), (".us", 5, 15), (".ca", 10, 20), (".de", 5, 15), (".fr", 5, 15),
  (".jp", 10, 30), (".au", 10, 25), (".br", 10, 25)]

/-- The `'default'` fallback entry of `tld_prices`. -/
def default_price : Nat × Nat := (10, 20)

/-- Renders a price range as the source's
f-string `f"${price_range['min']} - ${price_range['max']}/year"`. -/
def priceString (p : Nat × Nat) : String :=
  "$" ++ toString p.1 ++ " - $" ++ toString p.2 ++ "/year"

/-- `DomainPriceEstimator.estimate_price(domain)`: extract the TLD (falling
back to `'.com'` when the regex does not match), look it up in `tld_prices`
with the `'default'` entry as fallback, and format the range. -/
def estimate_price (domain : String) : String :=
  let tld := (extract_tld domain).getD ".com"
  let p := (((tld_prices.find? fun q => q.1 == tld).map fun q => q.2).getD default_price)
  priceString p

/-- An HTML anchor as built by the f-strings in `create_domain_info`:
`f'<a href="{url}" target="_blank">{text}</a>'`. -/
def anchor (url text : String) : String :=
  "<a href=\"" ++ url ++ "\" target=\"_blank\">" ++ text ++ "</a>"

/-- `create_domain_info(domain)` returns a Python dict; dicts preserve
insertion order, so the record is embedded as an association list of
(field name, value) pairs in the order the dict literal writes them.
The link fields call `get_purchase_link` with the literal registrar names
`"GoDaddy"` and `"Gandi"`, for which the lookup always succeeds, so `getD ""`
never supplies its default at these call sites. -/
def create_domain_info (domain : String) (w : WhoisOutcome) : List (String × String) :=
  if tld_ok domain then
    match check_domain_availability domain w with
    | none =>
        [("Domain", domain),
         ("Availability", "Error"),
         ("GoDaddy Link", anchor ((get_purchase_link domain "GoDaddy").getD "") "Check on GoDaddy"),
         ("Gandi Link", anchor ((get_purchase_link domain "Gandi").getD "") "Check on Gandi"),
         ("Estimated Price", estimate_price domain)]
    | some avail =>
        [("Domain", domain),
         ("Availability", if avail then "Available" else "Registered"),
         ("GoDaddy Link", anchor ((get_purchase_link domain "GoDaddy").getD "")
            ((if avail then "Buy" else "Check") ++ " on GoDaddy")),
         ("Gandi Link", anchor ((get_purchase_link domain "Gandi").getD "")
            ((if avail then "Buy" else "Check") ++ " on Gandi")),
         ("Estimated Price", estimate_price domain)]
  else
    [("Domain", domain),
     ("Availability", "Unsupported TLD"),
     ("GoDaddy Link", "-"),
     ("Gandi Link", "-"),
     ("Estimated Price", "-")]

/-- Field access on an embedded record: value of the first pair whose key
matches, mirroring a Python dict read `record[key]`. -/
def getField (record : List (String × String)) (key : String) : Option String :=
  (record.find? fun p => p.1 == key).map fun p => p.2

/-- Characters `str.strip()` removes: Python's ASCII whitespace
(space, tab, newline, carriage return, vertical tab, form feed). -/
def isPySpace (c : Char) : Bool :=
  c = ' ' ∨ c = '\t' ∨ c = '\n' ∨ c = '\r' ∨ c = Char.ofNat 11 ∨ c = Char.ofNat 12

/-- `line.strip()`: drop leading and trailing whitespace. -/
def pyStrip (s : String) : String :=
  String.mk (((s.toList.dropWhile isPySpace).reverse.dropWhile isPySpace).reverse)

/-- `text.split('\n')` on the character list, with Python semantics:
splitting the empty string yields one empty piece. -/
def splitNL : List Char → List (List Char)
  | [] => [[]]
  | c :: cs =>
      if c = '\n' then [] :: splitNL cs
      else
        match splitNL cs with
        | [] => [[c]]
        | x :: xs => (c :: x) :: xs

/-- `file_contents.split('\n')` as a list of line strings. -/
def split_lines (s : String) : List String :=
  (splitNL s.toList).map String.mk

/-- The batch loop of `main`:
`domains = [d.strip() for d in text.split('\n') if d.strip()]` followed by
one `create_domain_info` call per domain, appending results in order.
`env` supplies the WHOIS outcome observed for each domain. -/
def process_batch (text : String) (env : String → WhoisOutcome) : List (List (String × String)) :=
  (((split_lines text).filterMap fun line =>
      if pyStrip line == "" then none else some (pyStrip line)).map
    fun d => create_domain_info d (env d))

/-! Spec-side formalizations, written from the specification's words, for
comparison with the code-side definitions above. -/

/-- The spec's tri-state probe result: Available, Registered, Indeterminate. -/
inductive Signal where
  | available
  | registered
  | indeterminate
deriving DecidableEq, Repr

/-- Modelled from the spec: the Availability Resolver's plurality vote over
the three probe signals (WHOIS, DNS, HTTP).  Count Available votes `a` and
Registered votes `r` (Indeterminate counts toward neither); `a > r` gives
Available, `r > a` gives Registered, a tie gives Uncertain. -/
def resolve_spec (s1 s2 s3 : Signal) : String :=
  let a := [s1, s2, s3].countP (· == Signal.available)
  let r := [s1, s2, s3].countP (· == Signal.registered)
  if a > r then "Available" else if r > a then "Registered" else "Uncertain"

/-- Modelled from the spec: the suffix a case-insensitive trailing match of
the last dot-segment extracts — when the string contains a dot, the dot plus
the lowercased remainder after the last dot; otherwise no suffix is found. -/
def last_dot_segment (s : String) : Option String :=
  let rev := (s.toList.map pyLowerChar).reverse
  if (rev.dropWhile fun c => !(c == '.')).isEmpty then none
  else some (String.mk ('.' :: (rev.takeWhile fun c => !(c == '.')).reverse))

/-! Helper lemmas. -/

theorem takeWhile_append_of_sat {p : Char → Bool} :
    ∀ (xs : List Char) (y : Char) (ys : List Char), (∀ x ∈ xs, p x = true) → p y = false →
      (xs ++ y :: ys).takeWhile p = xs := by
  intro xs y ys hall hy
  induction xs with
  | nil => simp [List.takeWhile_cons, hy]
  | cons a as ih =>
      have ha : p a = true := hall a (List.mem_cons_self a as)
      simp only [List.cons_append, List.takeWhile_cons, ha, if_true]
      have := ih (fun x hx => hall x (List.mem_cons_of_mem a hx))
      simp [this]

theorem dropWhile_append_of_sat {p : Char → Bool} :
    ∀ (xs : List Char) (y : Char) (ys : List Char), (∀ x ∈ xs, p x = true) → p y = false →
      (xs ++ y :: ys).dropWhile p = y :: ys := by
  intro xs y ys hall hy
  induction xs with
  | nil => simp [List.dropWhile_cons, hy]
  | cons a as ih =>
      have ha : p a = true := hall a (List.mem_cons_self a as)
      simp only [List.cons_append, List.dropWhile_cons, ha, if_true]
      exact ih fun x hx => hall x (List.mem_cons_of_mem a hx)

theorem filterMap_strip_eq_map_filter (f : String → String) (lines : List String) :
    (lines.filterMap fun line => if f line == "" then none else some (f line)) =
      (lines.filter fun line => !(f line == "")).map f := by
  induction lines with
  | nil => rfl
  | cons l ls ih =>
      simp only [List.filterMap_cons, List.filter_cons, beq_iff_eq] at ih ⊢
      by_cases h : f l = ""
      · simp [h, ih]
      · simp [h, ih]

/-- C9: every record returned by `create_domain_info`, on any branch
(unsupported TLD, error, available, registered), has exactly the five fields
Domain, Availability, GoDaddy Link, Gandi Link, Estimated Price, in that
order, and its Domain field equals the input domain string unchanged. -/
theorem claim_C9 (d : String) (w : WhoisOutcome) :
    (create_domain_info d w).map Prod.fst =
      ["Domain", "Availability", "GoDaddy Link", "Gandi Link", "Estimated Price"] ∧
    getField (create_domain_info d w) "Domain" = some d := by
  unfold create_domain_info check_domain_availability
  by_cases h : tld_ok d
  · cases w <;> simp [h, getField]
  · simp [h, getField]

/-- C3: for every input whose TLD validation fails, the probe outcome is
never consulted (the record is the same constant for every `WhoisOutcome`),
the classification is the unsupported-TLD value, and the price and both
registrar-link fields are the placeholder `"-"`. -/
theorem claim_C3 (d : String) (w : WhoisOutcome) (h : tld_ok d = false) :
    create_domain_info d w =
      [("Domain", d), ("Availability", "Unsupported TLD"), ("GoDaddy Link", "-"),
       ("Gandi Link", "-"), ("Estimated Price", "-")] := by
  unfold create_domain_info
  simp [h]

theorem claim_C3_witness :
    tld_ok "bad tld.zzz" = false ∧
    create_domain_info "bad tld.zzz" WhoisOutcome.noMatch =
      [("Domain", "bad tld.zzz"), ("Availability", "Unsupported TLD"), ("GoDaddy Link", "-"),
       ("Gandi Link", "-"), ("Estimated Price", "-")] :=
  ⟨by decide, claim_C3 "bad tld.zzz" WhoisOutcome.noMatch (by decide)⟩

/-- C1 (amended): for every domain that passes TLD validation, the
classification is determined by the single WHOIS probe alone — Available
when the WHOIS call raises the no-match error, Registered when it returns a
record, and Error (not Uncertain) when it fails in any other way; there are
no DNS or HTTP probes and no three-signal plurality vote. -/
theorem claim_C1 (d : String) (w : WhoisOutcome) (h : tld_ok d = true) :
    getField (create_domain_info d w) "Availability" =
      some (match w with
            | WhoisOutcome.success => "Registered"
            | WhoisOutcome.noMatch => "Available"
            | WhoisOutcome.otherError => "Error") := by
  unfold create_domain_info check_domain_availability
  cases w <;> simp [h, getField]

theorem claim_C1_witness :
    tld_ok "example.com" = true ∧
    getField (create_domain_info "example.com" WhoisOutcome.noMatch) "Availability" =
      some "Available" :=
  ⟨by decide, claim_C1 "example.com" WhoisOutcome.noMatch (by decide)⟩

/-- C1 counterexample: `example.com` passes TLD validation, and when the one
WHOIS probe fails unexpectedly the code classifies it `"Error"`, while the
spec's three-signal plurality vote (WHOIS signal Indeterminate, the two
nonexistent probes taking any of the 9 signal pairs) never yields `"Error"` —
so the classification is not the claimed plurality vote. -/
theorem claim_C1_counterexample :
    tld_ok "example.com" = true ∧
    getField (create_domain_info "example.com" WhoisOutcome.otherError) "Availability" =
      some "Error" ∧
    ([Signal.available, Signal.registered, Signal.indeterminate].all fun s2 =>
      [Signal.available, Signal.registered, Signal.indeterminate].all fun s3 =>
        !(resolve_spec Signal.indeterminate s2 s3 == "Error")) = true :=
  ⟨by decide, by decide, by decide⟩

/-- C2 (amended): the WHOIS probe never lets an exception escape (the
embedding is a total function over all outcomes of the `whois.whois` call),
and it maps the protocol-level no-match error (`PywhoisError`) to the
Available signal (`some true`); but any other connection or parsing failure
is mapped to `none` — surfaced as the Error classification — not to
Available. -/
theorem claim_C2 (d : String) (w : WhoisOutcome) (h : tld_ok d = true) :
    check_domain_availability d w =
      (match w with
       | WhoisOutcome.success => some false
       | WhoisOutcome.noMatch => some true
       | WhoisOutcome.otherError => none) := by
  unfold check_domain_availability
  cases w <;> simp [h]

theorem claim_C2_witness :
    tld_ok "example.com" = true ∧
    check_domain_availability "example.com" WhoisOutcome.noMatch = some true :=
  ⟨by decide, claim_C2 "example.com" WhoisOutcome.noMatch (by decide)⟩

/-- C2 counterexample: for `example.com` (valid TLD), a WHOIS failure other
than `PywhoisError` yields `none` (the Error path), not the Available signal
`some true` — refuting "every other failure … maps to the Available
signal". -/
theorem claim_C2_counterexample :
    tld_ok "example.com" = true ∧
    check_domain_availability "example.com" WhoisOutcome.otherError = none ∧
    ¬ check_domain_availability "example.com" WhoisOutcome.otherError = some true :=
  ⟨by decide, by decide, by decide⟩

/-- C5 (amended): every emitted record's Availability field is one of the
four values `"Available"`, `"Registered"`, `"Error"`, `"Unsupported TLD"` —
the code's enumeration includes `"Error"` and never produces
`"Uncertain"`. -/
theorem claim_C5 (d : String) (w : WhoisOutcome) :
    getField (create_domain_info d w) "Availability" ∈
      [some "Available", some "Registered", some "Error", some "Unsupported TLD"] := by
  unfold create_domain_info check_domain_availability
  by_cases h : tld_ok d
  · cases w <;> simp [h, getField]
  · simp [h, getField]

/-- C5 counterexample: for `example.com` with an unexpected WHOIS failure the
emitted classification is `"Error"`, which is not among the four values
{Available, Registered, Uncertain, Unsupported TLD} the claim allows. -/
theorem claim_C5_counterexample :
    getField (create_domain_info "example.com" WhoisOutcome.otherError) "Availability" =
      some "Error" ∧
    "Error" ∉ ["Available", "Registered", "Uncertain", "Unsupported TLD"] :=
  ⟨by decide, by decide⟩

/-- C10: for every input with no trailing dot-plus-letters suffix (the TLD
regex finds no match), neither the price estimator nor the link builder
fails: both fall back to treating the suffix as `.com`, so `estimate_price`
returns the `.com` range `"$10 - $20/year"` and `get_purchase_link` returns
each registrar's default base URL followed by the percent-encoded input. -/
theorem claim_C10 (d : String) (h : extract_tld d = none) :
    estimate_price d = "$10 - $20/year" ∧
    get_purchase_link d "GoDaddy" =
      some ("https://www.godaddy.com/es-es/domainsearch/find?domainToCheck=" ++ pyQuote d) ∧
    get_purchase_link d "Gandi" =
      some ("https://shop.gandi.net/en/domain/suggest?search=" ++ pyQuote d) := by
  refine ⟨?_, ?_, ?_⟩
  all_goals
    simp [estimate_price, get_purchase_link, h, registrars_tld_specific, registrars_default,
      tld_prices, default_price, priceString]
  rfl

theorem claim_C10_witness :
    extract_tld "localhost" = none ∧
    estimate_price "localhost" = "$10 - $20/year" ∧
    get_purchase_link "localhost" "GoDaddy" =
      some ("https://www.godaddy.com/es-es/domainsearch/find?domainToCheck=" ++
        pyQuote "localhost") :=
  ⟨by decide, (claim_C10 "localhost" (by decide)).1, (claim_C10 "localhost" (by decide)).2.1⟩

/-- C6: the price estimator is a pure, total table lookup by suffix: for
every domain it returns the `tld_prices` entry of the extracted suffix when
one exists and the default range otherwise, formatted
`"$<min> - $<max>/year"`; concretely `example.io` gets the `.io` range and
`example.xyz` (no specific entry) the default range.  (When the regex finds
no suffix the code looks up `.com`, whose entry equals the default range, so
the characterization also holds there.) -/
theorem claim_C6 :
    (∀ d : String, estimate_price d =
      priceString ((((extract_tld d).bind fun t =>
        (tld_prices.find? fun q => q.1 == t).map fun q => q.2)).getD default_price)) ∧
    estimate_price "example.io" = "$30 - $50/year" ∧
    estimate_price "example.xyz" = "$10 - $20/year" := by
  refine ⟨fun d => ?_, by decide, by decide⟩
  cases h : extract_tld d with
  | none =>
      simp only [estimate_price, h, Option.getD_none, Option.bind]
      rfl
  | some t => simp [estimate_price, h]

/-- C7: for every domain and each recognized registrar name the link builder
returns the registrar's configured base search URL (the per-TLD override
table being empty) concatenated with the percent-encoding of the domain, and
it fails (`none`, the `KeyError`) exactly when the registrar name is
unrecognized; concretely `get_purchase_link "foo.com" "GoDaddy"` is the
GoDaddy base URL with the encoded domain appended. -/
theorem claim_C7 :
    (∀ d : String,
      get_purchase_link d "GoDaddy" =
        some ("https://www.godaddy.com/es-es/domainsearch/find?domainToCheck=" ++ pyQuote d) ∧
      get_purchase_link d "Gandi" =
        some ("https://shop.gandi.net/en/domain/suggest?search=" ++ pyQuote d)) ∧
    (∀ d r : String, get_purchase_link d r = none ↔ r ≠ "GoDaddy" ∧ r ≠ "Gandi") ∧
    get_purchase_link "foo.com" "GoDaddy" =
      some "https://www.godaddy.com/es-es/domainsearch/find?domainToCheck=foo.com" := by
  refine ⟨fun d => ⟨?_, ?_⟩, fun d r => ?_, by decide⟩
  · simp [get_purchase_link, registrars_tld_specific, registrars_default]
  · simp [get_purchase_link, registrars_tld_specific, registrars_default]
  · by_cases hg : r = "GoDaddy"
    · simp [get_purchase_link, registrars_tld_specific, registrars_default, hg]
    · by_cases hn : r = "Gandi"
      · simp [get_purchase_link, registrars_tld_specific, registrars_default, hn]
      · simp [get_purchase_link, registrars_tld_specific, registrars_default, hg, hn]

theorem claim_C7_witness :
    get_purchase_link "foo.com" "Namecheap" = none :=
  (claim_C7.2.1 "foo.com" "Namecheap").mpr (by decide)

/-- C4: the batch discards blank/whitespace-only lines and emits exactly one
record per remaining line, in input order — `process_batch` equals mapping
`create_domain_info` over the stripped non-blank lines in order, its length
is the number of non-blank lines, and on the spec's end-to-end example the
two non-blank lines produce two records, in order. -/
theorem claim_C4 :
    (∀ (text : String) (env : String → WhoisOutcome),
      process_batch text env =
        ((split_lines text).filter fun line => !(pyStrip line == "")).map
          (fun line => create_domain_info (pyStrip line) (env (pyStrip line))) ∧
      (process_batch text env).length =
        ((split_lines text).filter fun line => !(pyStrip line == "")).length) ∧
    ((process_batch "good-example.com\nbad tld.zzz\n\n  " fun _ => WhoisOutcome.noMatch).map
      fun rec => getField rec "Domain") =
        [some "good-example.com", some "bad tld.zzz"] := by
  refine ⟨fun text env => ?_, by decide⟩
  have h := filterMap_strip_eq_map_filter pyStrip (split_lines text)
  constructor
  · unfold process_batch
    rw [h, List.map_map]
    rfl
  · unfold process_batch
    rw [h, List.map_map]
    simp

/-- Shape of an entry in the supported-TLD table: a dot followed by a
nonempty run of lowercase letters. -/
def tldShapeB (t : String) : Bool :=
  match t.toList with
  | c :: cs => c == '.' && !cs.isEmpty && cs.all isLowerAZ
  | [] => false

theorem tlds_shape : SUPPORTED_TLDS.all tldShapeB = true := by decide

theorem mem_tlds_shape (t : String) (ht : t ∈ SUPPORTED_TLDS) :
    ∃ cs, t.toList = '.' :: cs ∧ cs ≠ [] ∧ ∀ c ∈ cs, isLowerAZ c = true := by
  have h : tldShapeB t = true := List.all_eq_true.mp tlds_shape t ht
  unfold tldShapeB at h
  cases hl : t.toList with
  | nil => rw [hl] at h; simp at h
  | cons a as =>
      rw [hl] at h
      simp only [Bool.and_eq_true, beq_iff_eq, Bool.not_eq_true'] at h
      obtain ⟨⟨ha, hne⟩, hall⟩ := h
      refine ⟨as, by rw [ha], ?_, fun c hc => List.all_eq_true.mp hall c hc⟩
      intro hnil
      rw [hnil] at hne
      simp at hne

theorem lowerAZ_ne_dot {c : Char} (h : isLowerAZ c = true) : (!(c == '.')) = true := by
  cases hc : c == '.' with
  | false => simp
  | true =>
      have : c = '.' := by simpa using hc
      rw [this] at h
      simp [isLowerAZ] at h

theorem toList_mk (l : List Char) : (String.mk l).toList = l := rfl

/-- C8: a domain passes the code's TLD validation exactly when the
spec-level extraction succeeds — the string has a last dot-segment whose
case-insensitive (lowercased) form is a member of the supported-TLD set.
Both sides are pure functions (no I/O in the embedding). -/
theorem claim_C8 (s : String) :
    tld_ok s = true ↔ ∃ t, last_dot_segment s = some t ∧ t ∈ SUPPORTED_TLDS := by
  constructor
  · intro h
    unfold tld_ok at h
    cases he : extract_tld s with
    | none => rw [he] at h; exact absurd h (by simp)
    | some t =>
        rw [he] at h
        simp only [] at h
        have hmem : t ∈ SUPPORTED_TLDS := List.elem_iff.mp h
        unfold extract_tld at he
        simp only [] at he
        split_ifs at he with h1 h2
        simp only [Option.some.injEq] at he
        subst he
        obtain ⟨rest', hrest⟩ :
            ∃ r, (s.toList.map pyLowerChar).reverse.dropWhile isLowerAZ = '.' :: r := by
          cases hd : (s.toList.map pyLowerChar).reverse.dropWhile isLowerAZ with
          | nil => rw [hd] at h2; simp at h2
          | cons x xs =>
              rw [hd] at h2
              simp only [List.head?_cons, Option.some.injEq] at h2
              exact ⟨xs, by rw [h2]⟩
        have hsplit : (s.toList.map pyLowerChar).reverse =
            ((s.toList.map pyLowerChar).reverse.takeWhile isLowerAZ) ++ '.' :: rest' := by
          conv_lhs => rw [← List.takeWhile_append_dropWhile isLowerAZ
            ((s.toList.map pyLowerChar).reverse)]
          rw [hrest]
        have hrunsat : ∀ x ∈ (s.toList.map pyLowerChar).reverse.takeWhile isLowerAZ,
            (!(x == '.')) = true :=
          fun x hx => lowerAZ_ne_dot (List.mem_takeWhile_imp hx)
        have hdw : ((s.toList.map pyLowerChar).reverse.dropWhile fun c => !(c == '.')) =
            '.' :: rest' := by
          conv_lhs => rw [hsplit]
          exact dropWhile_append_of_sat _ _ _ hrunsat (by decide)
        have htw : ((s.toList.map pyLowerChar).reverse.takeWhile fun c => !(c == '.')) =
            (s.toList.map pyLowerChar).reverse.takeWhile isLowerAZ := by
          conv_lhs => rw [hsplit]
          exact takeWhile_append_of_sat _ _ _ hrunsat (by decide)
        refine ⟨String.mk ('.' ::
          ((s.toList.map pyLowerChar).reverse.takeWhile isLowerAZ).reverse), ?_, hmem⟩
        unfold last_dot_segment
        simp only [hdw, htw, List.isEmpty_cons, Bool.false_eq_true, if_false]
  · rintro ⟨t, hseg, hmem⟩
    obtain ⟨cs, hcs, hcsne, hcslow⟩ := mem_tlds_shape t hmem
    unfold last_dot_segment at hseg
    simp only [] at hseg
    split_ifs at hseg with h1
    simp only [Option.some.injEq] at hseg
    subst hseg
    rw [toList_mk] at hcs
    simp only [List.cons.injEq, true_and] at hcs
    have hrun : ((s.toList.map pyLowerChar).reverse.takeWhile fun c => !(c == '.')) =
        cs.reverse := by
      rw [← hcs, List.reverse_reverse]
    have hrunlow : ∀ x ∈ ((s.toList.map pyLowerChar).reverse.takeWhile
        fun c => !(c == '.')), isLowerAZ x = true := by
      intro x hx
      rw [hrun] at hx
      exact hcslow x (List.mem_reverse.mp hx)
    obtain ⟨d, rest', hd⟩ :
        ∃ d r, ((s.toList.map pyLowerChar).reverse.dropWhile fun c => !(c == '.')) =
          d :: r := by
      cases hdq : ((s.toList.map pyLowerChar).reverse.dropWhile fun c => !(c == '.')) with
      | nil => rw [hdq] at h1; simp at h1
      | cons x xs => exact ⟨x, xs, rfl⟩
    have hddot : d = '.' := by
      have hh := List.head?_dropWhile_not (fun c => !(c == '.'))
        ((s.toList.map pyLowerChar).reverse)
      rw [hd] at hh
      simp only [List.head?_cons] at hh
      simpa using hh
    subst hddot
    have hsplit : (s.toList.map pyLowerChar).reverse =
        ((s.toList.map pyLowerChar).reverse.takeWhile fun c => !(c == '.')) ++
          '.' :: rest' := by
      conv_lhs => rw [← List.takeWhile_append_dropWhile (fun c => !(c == '.'))
        ((s.toList.map pyLowerChar).reverse)]
      rw [hd]
    have htw : (s.toList.map pyLowerChar).reverse.takeWhile isLowerAZ =
        ((s.toList.map pyLowerChar).reverse.takeWhile fun c => !(c == '.')) := by
      conv_lhs => rw [hsplit]
      exact takeWhile_append_of_sat _ _ _ hrunlow (by decide)
    have hdwz : (s.toList.map pyLowerChar).reverse.dropWhile isLowerAZ = '.' :: rest' := by
      conv_lhs => rw [hsplit]
      exact dropWhile_append_of_sat _ _ _ hrunlow (by decide)
    have hre : ((s.toList.map pyLowerChar).reverse.takeWhile
        fun c => !(c == '.')).isEmpty = false := by
      rw [hrun]
      cases hcse : cs.reverse with
      | nil => exact absurd (by simpa using hcse) hcsne
      | cons a as => rfl
    have hex : extract_tld s = some (String.mk ('.' ::
        ((s.toList.map pyLowerChar).reverse.takeWhile fun c => !(c == '.')).reverse)) := by
      unfold extract_tld
      simp only [htw, hdwz, hre, Bool.false_eq_true, if_false, List.head?_cons,
        Option.some.injEq, if_true]
    unfold tld_ok
    rw [hex]
    simp only []
    exact List.elem_iff.mpr hmem

theorem claim_C8_witness :
    ∃ t, last_dot_segment "Example.COM" = some t ∧ t ∈ SUPPORTED_TLDS :=
  (claim_C8 "Example.COM").mp (by decide)

end DomainChecker





